import Mathlib

/-!
Shallow embedding of the Ask4Fitness service-worker cache layer.

The repository ships two service-worker scripts (variant A and variant B in
the combined file). Each registers three handlers: install (pre-populate a
named cache generation with a fixed asset manifest via cache.addAll),
activate (delete every cache generation whose name differs from the current
CACHE_NAME), and fetch (cache-first lookup with network fallback).

The embedding models:
- a Response as its payload (cloning a response is the identity on values);
- a Cache as an association list from URL key to stored response, where
  cachePut overwrites in place (last write wins, one entry per key);
- the CacheStorage as an ordered association list of named caches, where
  caches.match searches the generations in order and caches.open returns
  the named cache, treating an absent one as empty (created on demand);
- the network as a function from URL to Option Response (none = the fetch
  rejects), and a flag openErr modelling a runtime storage failure of the
  caches.open step performed inside the fetch handlers when writing a
  freshly fetched response back to the cache (its rejection is discarded in
  variant A, which never awaits the write, but propagates to the outer
  catch in variant B, whose handler returns the network response from
  inside the caches.open chain);
- each event handler as a pure function from the pre-state to the
  post-state; the fetch handlers additionally return instrumentation
  counters (number of network fetches, cache lookups and cache writes
  performed) so that bypass and short-circuit properties are stated as
  counter equations.
-/

structure Response where
  body : String
deriving DecidableEq, Repr

abbrev Cache := List (String × Response)

abbrev CacheStorage := List (String × Cache)

/-- Cache name of service-worker variant A (source line 1). -/
def CACHE_NAME_A : String := "ask4fitness-cache-v1"

/-- Asset manifest of variant A (source lines 2-11): relative URLs. -/
def ASSETS_A : List String :=
  ["./", "index.html", "public.html", "styles.css", "app.js",
   "manifest.webmanifest", "icons/icon-192.png", "icons/icon-512.png"]

/-- Cache name of service-worker variant B (source line 58). -/
def CACHE_NAME_B : String := "a4f-cache-v1"

/-- Asset manifest of variant B (source lines 59-68): absolute URLs. -/
def ASSETS_B : List String :=
  ["/", "/index.html", "/public.html", "/styles.css", "/app.js",
   "/manifest.webmanifest", "/icons/icon-192.png", "/icons/icon-512.png"]

/-- Look a URL key up in one cache generation. -/
def cacheLookup : Cache → String → Option Response
  | [], _ => none
  | e :: rest, url => if e.1 = url then some e.2 else cacheLookup rest url

/-- Cache.put: store a response under a URL key, overwriting any previous
entry for that key in place (one entry per key, last write wins). -/
def cachePut : Cache → String → Response → Cache
  | [], url, r => [(url, r)]
  | e :: rest, url, r =>
    if e.1 = url then (url, r) :: rest else e :: cachePut rest url r

/-- Look a generation name up in the cache storage. -/
def storageGet : CacheStorage → String → Option Cache
  | [], _ => none
  | e :: rest, name => if e.1 = name then some e.2 else storageGet rest name

/-- Replace the named generation, or append it if absent. -/
def storageSet : CacheStorage → String → Cache → CacheStorage
  | [], name, c => [(name, c)]
  | e :: rest, name, c =>
    if e.1 = name then (name, c) :: rest else e :: storageSet rest name c

/-- The caches.open step: the named generation, created empty if absent. -/
def cachesOpen (s : CacheStorage) (name : String) : Cache :=
  (storageGet s name).getD []

/-- The caches.match step: search every generation in order for the key. -/
def cachesMatch : CacheStorage → String → Option Response
  | [], _ => none
  | e :: rest, url =>
    match cacheLookup e.2 url with
    | some r => some r
    | none => cachesMatch rest url

/-- Open the named generation and put one entry into it. -/
def putInCache (s : CacheStorage) (name url : String) (r : Response) :
    CacheStorage :=
  storageSet s name (cachePut (cachesOpen s name) url r)

/-- Fetch every asset of the manifest in order; the whole batch fails as
soon as any single fetch fails (none). -/
def fetchAssets (net : String → Option Response) :
    List String → Option (List (String × Response))
  | [] => some []
  | u :: rest =>
    match net u with
    | none => none
    | some r => (fetchAssets net rest).map (fun ps => (u, r) :: ps)

/-- Cache.addAll: fetch all assets and, only if every fetch succeeded,
store them all into the cache (the batch write is atomic). -/
def cacheAddAll (net : String → Option Response) (c : Cache)
    (assets : List String) : Option Cache :=
  (fetchAssets net assets).map
    (fun ps => ps.foldl (fun acc p => cachePut acc p.1 p.2) c)

structure InstallOutcome where
  caches : CacheStorage
  succeeded : Bool
deriving DecidableEq, Repr

/-- The install handler: open the current generation (creating it if
absent), addAll the manifest; event.waitUntil propagates an addAll failure
as failure of the whole install step, leaving the generation content
unchanged. -/
def installEvent (cacheName : String) (assets : List String)
    (net : String → Option Response) (s : CacheStorage) : InstallOutcome :=
  let cache := cachesOpen s cacheName
  match cacheAddAll net cache assets with
  | some c => ⟨storageSet s cacheName c, true⟩
  | none => ⟨storageSet s cacheName cache, false⟩

/-- Install handler of variant A (source lines 13-19). -/
def installA (net : String → Option Response) (s : CacheStorage) :
    InstallOutcome :=
  installEvent CACHE_NAME_A ASSETS_A net s

/-- Install handler of variant B (source lines 69-73). -/
def installB (net : String → Option Response) (s : CacheStorage) :
    InstallOutcome :=
  installEvent CACHE_NAME_B ASSETS_B net s

/-- The activate handler: delete every generation whose name is not the
current cache name. Variant A (lines 21-31) filters the keys and maps
caches.delete over them; variant B (lines 74-84) maps over all keys and
deletes conditionally; both keep exactly the generations named cacheName. -/
def activateEvent (cacheName : String) : CacheStorage → CacheStorage
  | [] => []
  | e :: rest =>
    if e.1 = cacheName then e :: activateEvent cacheName rest
    else activateEvent cacheName rest

structure Request where
  url : String
  method : String
  /-- The request mode; "navigate" for full-page navigations. -/
  mode : String
deriving DecidableEq, Repr

inductive FetchResult where
  /-- The handler returned without calling event.respondWith: the request
  passes through to the network unmodified. -/
  | passthrough
  /-- The respondWith promise resolved with a response. -/
  | response (r : Response)
  /-- The respondWith promise resolved with undefined: the caller sees a
  failed fetch, not a response. -/
  | noResponse
deriving DecidableEq, Repr

structure FetchOutcome where
  result : FetchResult
  caches : CacheStorage
  netFetches : Nat
  cacheReads : Nat
  cacheWrites : Nat
deriving DecidableEq, Repr

structure FetchEnv where
  /-- The network: none means fetch(request) rejects. -/
  net : String → Option Response
  /-- Whether the caches.open call performed while writing a fetched
  response back to the cache rejects (runtime storage failure). -/
  openErr : Bool

/-- Fetch handler of variant A (source lines 33-57): non-GET requests are
not intercepted; on hit return the cached response; on miss fetch, write
the clone back fire-and-forget (a failure of that write is discarded) and
return the live response; on network failure return the cached
"index.html" shell for navigation requests and undefined otherwise. -/
def handleFetchA (env : FetchEnv) (s : CacheStorage) (req : Request) :
    FetchOutcome :=
  if req.method ≠ "GET" then ⟨.passthrough, s, 0, 0, 0⟩
  else
    match cachesMatch s req.url with
    | some cached => ⟨.response cached, s, 0, 1, 0⟩
    | none =>
      match env.net req.url with
      | some resp =>
        if env.openErr then ⟨.response resp, s, 1, 1, 0⟩
        else ⟨.response resp, putInCache s CACHE_NAME_A req.url resp, 1, 1, 1⟩
      | none =>
        if req.mode = "navigate" then
          match cachesMatch s "index.html" with
          | some shell => ⟨.response shell, s, 1, 2, 0⟩
          | none => ⟨.noResponse, s, 1, 2, 0⟩
        else ⟨.noResponse, s, 1, 1, 0⟩

/-- Fetch handler of variant B (source lines 85-100): non-GET requests are
not intercepted; on hit return the cached response; on miss fetch and
return the response from inside the caches.open chain, so a failure of
that chain, like the network failure itself, lands in the single outer
catch, which answers with the cached "/index.html" shell regardless of the
request mode (undefined if that shell is not cached). -/
def handleFetchB (env : FetchEnv) (s : CacheStorage) (req : Request) :
    FetchOutcome :=
  if req.method ≠ "GET" then ⟨.passthrough, s, 0, 0, 0⟩
  else
    match cachesMatch s req.url with
    | some cached => ⟨.response cached, s, 0, 1, 0⟩
    | none =>
      match env.net req.url with
      | some resp =>
        if env.openErr then
          match cachesMatch s "/index.html" with
          | some shell => ⟨.response shell, s, 1, 2, 0⟩
          | none => ⟨.noResponse, s, 1, 2, 0⟩
        else ⟨.response resp, putInCache s CACHE_NAME_B req.url resp, 1, 1, 1⟩
      | none =>
        match cachesMatch s "/index.html" with
        | some shell => ⟨.response shell, s, 1, 2, 0⟩
        | none => ⟨.noResponse, s, 1, 2, 0⟩

/-! Basic lemmas about the cache primitives. -/

theorem cacheLookup_cachePut_self (c : Cache) (u : String) (r : Response) :
    cacheLookup (cachePut c u r) u = some r := by
  induction c with
  | nil => simp [cachePut, cacheLookup]
  | cons e rest ih =>
    by_cases h : e.1 = u
    · simp [cachePut, h, cacheLookup]
    · simp [cachePut, h, cacheLookup, ih]

theorem cacheLookup_cachePut_ne (c : Cache) (u v : String) (r : Response)
    (h : v ≠ u) : cacheLookup (cachePut c u r) v = cacheLookup c v := by
  induction c with
  | nil => simp [cachePut, cacheLookup, Ne.symm h]
  | cons e rest ih =>
    obtain ⟨k, w⟩ := e
    by_cases he : k = u
    · have hkv : k ≠ v := by rw [he]; exact Ne.symm h
      simp [cachePut, he, cacheLookup, Ne.symm h, hkv]
    · simp [cachePut, he, cacheLookup, ih]

theorem cachePut_eq_of_lookup (c : Cache) (u : String) (r : Response)
    (h : cacheLookup c u = some r) : cachePut c u r = c := by
  induction c with
  | nil => simp [cacheLookup] at h
  | cons e rest ih =>
    obtain ⟨k, w⟩ := e
    by_cases he : k = u
    · simp [cacheLookup, he] at h
      subst he; subst h
      simp [cachePut]
    · simp [cacheLookup, he] at h
      simp [cachePut, he, ih h]

theorem storageGet_storageSet_self (s : CacheStorage) (n : String)
    (c : Cache) : storageGet (storageSet s n c) n = some c := by
  induction s with
  | nil => simp [storageSet, storageGet]
  | cons e rest ih =>
    by_cases h : e.1 = n
    · simp [storageSet, h, storageGet]
    · simp [storageSet, h, storageGet, ih]

theorem storageGet_storageSet_ne (s : CacheStorage) (n m : String)
    (c : Cache) (h : m ≠ n) :
    storageGet (storageSet s n c) m = storageGet s m := by
  induction s with
  | nil => simp [storageSet, storageGet, Ne.symm h]
  | cons e rest ih =>
    obtain ⟨k, w⟩ := e
    by_cases he : k = n
    · have hkm : k ≠ m := by rw [he]; exact Ne.symm h
      simp [storageSet, he, storageGet, Ne.symm h, hkm]
    · simp [storageSet, he, storageGet, ih]

theorem storageSet_eq_of_get (s : CacheStorage) (n : String) (c : Cache)
    (h : storageGet s n = some c) : storageSet s n c = s := by
  induction s with
  | nil => simp [storageGet] at h
  | cons e rest ih =>
    obtain ⟨k, w⟩ := e
    by_cases he : k = n
    · simp [storageGet, he] at h
      subst he; subst h
      simp [storageSet]
    · simp [storageGet, he] at h
      simp [storageSet, he, ih h]

theorem cachesOpen_storageSet_self (s : CacheStorage) (n : String)
    (c : Cache) : cachesOpen (storageSet s n c) n = c := by
  simp [cachesOpen, storageGet_storageSet_self]

theorem cachesMatch_putInCache_self (s : CacheStorage) (n u : String)
    (r : Response) (h : cachesMatch s u = none) :
    cachesMatch (putInCache s n u r) u = some r := by
  induction s with
  | nil =>
    simp [putInCache, cachesOpen, storageGet, storageSet, cachePut,
      cachesMatch, cacheLookup]
  | cons e rest ih =>
    have hsplit : cacheLookup e.2 u = none ∧ cachesMatch rest u = none := by
      simp only [cachesMatch] at h
      cases hc : cacheLookup e.2 u with
      | some r2 => rw [hc] at h; simp at h
      | none => rw [hc] at h; exact ⟨rfl, h⟩
    by_cases he : e.1 = n
    · simp [putInCache, cachesOpen, storageGet, he, storageSet, cachesMatch,
        cacheLookup_cachePut_self]
    · have hopen : cachesOpen (e :: rest) n = cachesOpen rest n := by
        simp [cachesOpen, storageGet, he]
      have hset : putInCache (e :: rest) n u r = e :: putInCache rest n u r := by
        simp [putInCache, hopen, storageSet, he]
      rw [hset]
      simp only [cachesMatch, hsplit.1]
      exact ih hsplit.2

theorem cacheLookup_cachesOpen_putInCache (s : CacheStorage) (n u : String)
    (r : Response) :
    cacheLookup (cachesOpen (putInCache s n u r) n) u = some r := by
  simp [putInCache, cachesOpen_storageSet_self, cacheLookup_cachePut_self]

/-! Lemmas about the install phase. -/

theorem fetchAssets_ok (net : String → Option Response)
    (assets : List String) (h : ∀ u ∈ assets, (net u).isSome) :
    ∃ ps, fetchAssets net assets = some ps ∧ ps.map Prod.fst = assets ∧
      ∀ p ∈ ps, net p.1 = some p.2 := by
  induction assets with
  | nil => exact ⟨[], rfl, rfl, by simp⟩
  | cons u rest ih =>
    have hu : (net u).isSome := h u (List.mem_cons_self u rest)
    obtain ⟨r, hr⟩ := Option.isSome_iff_exists.mp hu
    obtain ⟨ps, hps, hmap, hall⟩ :=
      ih (fun v hv => h v (List.mem_cons_of_mem u hv))
    refine ⟨(u, r) :: ps, ?_, ?_, ?_⟩
    · simp [fetchAssets, hr, hps]
    · simp [hmap]
    · intro p hp
      rcases List.mem_cons.mp hp with h1 | h2
      · subst h1; exact hr
      · exact hall p h2

theorem fetchAssets_fail (net : String → Option Response)
    (assets : List String) (u : String) (hu : u ∈ assets)
    (hn : net u = none) : fetchAssets net assets = none := by
  induction assets with
  | nil => simp at hu
  | cons v rest ih =>
    rcases List.mem_cons.mp hu with h1 | h2
    · subst h1; simp [fetchAssets, hn]
    · cases hv : net v with
      | none => simp [fetchAssets, hv]
      | some r => simp [fetchAssets, hv, ih h2]

theorem cacheLookup_foldlPut_not_mem (ps : List (String × Response))
    (c : Cache) (u : String) (h : u ∉ ps.map Prod.fst) :
    cacheLookup (ps.foldl (fun acc p => cachePut acc p.1 p.2) c) u =
      cacheLookup c u := by
  induction ps generalizing c with
  | nil => rfl
  | cons p rest ih =>
    simp only [List.map_cons, List.mem_cons] at h
    push_neg at h
    simp only [List.foldl_cons]
    rw [ih _ h.2, cacheLookup_cachePut_ne _ _ _ _ h.1]

theorem cacheLookup_foldlPut_mem (ps : List (String × Response)) (c : Cache)
    (u : String) (r : Response)
    (hps : ∀ p ∈ ps, p.1 = u → p.2 = r) (hmem : u ∈ ps.map Prod.fst) :
    cacheLookup (ps.foldl (fun acc p => cachePut acc p.1 p.2) c) u =
      some r := by
  induction ps generalizing c with
  | nil => simp at hmem
  | cons p rest ih =>
    simp only [List.foldl_cons]
    by_cases hr : u ∈ rest.map Prod.fst
    · exact ih _ (fun q hq => hps q (List.mem_cons_of_mem p hq)) hr
    · have hpu : p.1 = u := by
        simp only [List.map_cons, List.mem_cons] at hmem
        rcases hmem with h1 | h2
        · exact h1.symm
        · exact absurd h2 hr
      rw [cacheLookup_foldlPut_not_mem rest _ u hr, hpu,
        cacheLookup_cachePut_self]
      exact congrArg some (hps p (List.mem_cons_self p rest) hpu)

theorem foldlPut_eq_of_lookup (ps : List (String × Response)) (c : Cache)
    (h : ∀ p ∈ ps, cacheLookup c p.1 = some p.2) :
    ps.foldl (fun acc p => cachePut acc p.1 p.2) c = c := by
  induction ps with
  | nil => rfl
  | cons p rest ih =>
    simp only [List.foldl_cons]
    rw [cachePut_eq_of_lookup _ _ _ (h p (List.mem_cons_self p rest))]
    exact ih (fun q hq => h q (List.mem_cons_of_mem p hq))

theorem mem_keys_cachePut (c : Cache) (u v : String) (r : Response)
    (h : v ∈ (cachePut c u r).map Prod.fst) :
    v = u ∨ v ∈ c.map Prod.fst := by
  induction c with
  | nil =>
    simp only [cachePut, List.map_cons, List.map_nil,
      List.mem_singleton] at h
    exact Or.inl h
  | cons e rest ih =>
    by_cases he : e.1 = u
    · have hrw : cachePut (e :: rest) u r = (u, r) :: rest := by
        simp [cachePut, he]
      rw [hrw, List.map_cons, List.mem_cons] at h
      rcases h with h1 | h2
      · exact Or.inl h1
      · exact Or.inr (by rw [List.map_cons]; exact List.mem_cons_of_mem _ h2)
    · have hrw : cachePut (e :: rest) u r = e :: cachePut rest u r := by
        simp [cachePut, he]
      rw [hrw, List.map_cons, List.mem_cons] at h
      rcases h with h1 | h2
      · exact Or.inr (by rw [List.map_cons, h1]; exact List.mem_cons_self _ _)
      · rcases ih h2 with h3 | h4
        · exact Or.inl h3
        · exact Or.inr (by rw [List.map_cons]; exact List.mem_cons_of_mem _ h4)

theorem nodup_keys_cachePut (c : Cache) (u : String) (r : Response)
    (h : (c.map Prod.fst).Nodup) :
    ((cachePut c u r).map Prod.fst).Nodup := by
  induction c with
  | nil => simp [cachePut]
  | cons e rest ih =>
    simp only [List.map_cons, List.nodup_cons] at h
    by_cases he : e.1 = u
    · have hrw : cachePut (e :: rest) u r = (u, r) :: rest := by
        simp [cachePut, he]
      rw [hrw, List.map_cons, List.nodup_cons]
      refine ⟨?_, h.2⟩
      rw [← he]
      exact h.1
    · have hrw : cachePut (e :: rest) u r = e :: cachePut rest u r := by
        simp [cachePut, he]
      rw [hrw, List.map_cons, List.nodup_cons]
      refine ⟨?_, ih h.2⟩
      intro hmem
      rcases mem_keys_cachePut rest u e.1 r hmem with h1 | h2
      · exact he h1
      · exact h.1 h2

theorem nodup_keys_foldlPut (ps : List (String × Response)) (c : Cache)
    (h : (c.map Prod.fst).Nodup) :
    ((ps.foldl (fun acc p => cachePut acc p.1 p.2) c).map Prod.fst).Nodup := by
  induction ps generalizing c with
  | nil => exact h
  | cons p rest ih => exact ih _ (nodup_keys_cachePut _ _ _ h)

theorem installEvent_ok (n : String) (as : List String)
    (net : String → Option Response) (s : CacheStorage)
    (h : ∀ u ∈ as, (net u).isSome) :
    (installEvent n as net s).succeeded = true ∧
    ∀ u r, u ∈ as → net u = some r →
      cacheLookup (cachesOpen (installEvent n as net s).caches n) u =
        some r := by
  obtain ⟨ps, hps, hmap, hall⟩ := fetchAssets_ok net as h
  constructor
  · simp [installEvent, cacheAddAll, hps]
  · intro u r hu hr
    simp only [installEvent, cacheAddAll, hps, Option.map_some']
    rw [cachesOpen_storageSet_self]
    apply cacheLookup_foldlPut_mem
    · intro p hp hpu
      have hq := hall p hp
      rw [hpu, hr] at hq
      injection hq with h2
      exact h2.symm
    · rw [hmap]
      exact hu

theorem installEvent_fail (n : String) (as : List String)
    (net : String → Option Response) (s : CacheStorage) (u : String)
    (hu : u ∈ as) (hn : net u = none) :
    (installEvent n as net s).succeeded = false ∧
    ∀ v, cacheLookup (cachesOpen (installEvent n as net s).caches n) v =
      cacheLookup (cachesOpen s n) v := by
  have hfa := fetchAssets_fail net as u hu hn
  constructor
  · simp [installEvent, cacheAddAll, hfa]
  · intro v
    simp [installEvent, cacheAddAll, hfa, cachesOpen_storageSet_self]

theorem installEvent_idem (n : String) (as : List String)
    (net : String → Option Response) (s : CacheStorage)
    (h : ∀ u ∈ as, (net u).isSome) :
    installEvent n as net (installEvent n as net s).caches =
      ⟨(installEvent n as net s).caches, true⟩ := by
  obtain ⟨ps, hps, hmap, hall⟩ := fetchAssets_ok net as h
  have h1 : installEvent n as net s =
      ⟨storageSet s n
        (ps.foldl (fun acc p => cachePut acc p.1 p.2) (cachesOpen s n)),
        true⟩ := by
    simp [installEvent, cacheAddAll, hps]
  have hopen : cachesOpen (installEvent n as net s).caches n =
      ps.foldl (fun acc p => cachePut acc p.1 p.2) (cachesOpen s n) := by
    rw [h1]
    exact cachesOpen_storageSet_self _ _ _
  have hlook : ∀ p ∈ ps,
      cacheLookup
        (ps.foldl (fun acc p => cachePut acc p.1 p.2) (cachesOpen s n))
        p.1 = some p.2 := by
    intro p hp
    apply cacheLookup_foldlPut_mem
    · intro q hq hqp
      have hq2 := hall q hq
      rw [hqp, hall p hp] at hq2
      injection hq2 with h2
      exact h2.symm
    · exact List.mem_map_of_mem Prod.fst hp
  have hget : storageGet (installEvent n as net s).caches n =
      some (ps.foldl (fun acc p => cachePut acc p.1 p.2) (cachesOpen s n)) := by
    rw [h1]
    exact storageGet_storageSet_self _ _ _
  have hfold := foldlPut_eq_of_lookup ps _ hlook
  generalize hX : (installEvent n as net s).caches = X at hopen hget ⊢
  simp only [installEvent, cacheAddAll, hps, Option.map_some']
  rw [hopen, hfold, storageSet_eq_of_get _ _ _ hget]

/-! Lemmas about the activate phase. -/

theorem storageGet_activate_ne (cn k : String) (s : CacheStorage)
    (h : k ≠ cn) : storageGet (activateEvent cn s) k = none := by
  induction s with
  | nil => rfl
  | cons e rest ih =>
    by_cases he : e.1 = cn
    · simp [activateEvent, he, storageGet, Ne.symm h, ih]
    · simp [activateEvent, he, ih]

theorem storageGet_activate_self (cn : String) (s : CacheStorage) :
    storageGet (activateEvent cn s) cn = storageGet s cn := by
  induction s with
  | nil => rfl
  | cons e rest ih =>
    by_cases he : e.1 = cn
    · simp [activateEvent, he, storageGet, ih]
    · simp [activateEvent, he, storageGet, ih]

theorem storageGet_none_of_not_mem (s : CacheStorage) (k : String)
    (h : k ∉ s.map Prod.fst) : storageGet s k = none := by
  induction s with
  | nil => rfl
  | cons e rest ih =>
    rw [List.map_cons, List.mem_cons] at h
    push_neg at h
    simp [storageGet, Ne.symm h.1, ih h.2]

theorem activate_nil_of_not_mem (cn : String) (s : CacheStorage)
    (h : cn ∉ s.map Prod.fst) : activateEvent cn s = [] := by
  induction s with
  | nil => rfl
  | cons e rest ih =>
    rw [List.map_cons, List.mem_cons] at h
    push_neg at h
    simp [activateEvent, Ne.symm h.1, ih h.2]

theorem activate_length (cn : String) (s : CacheStorage)
    (h : (s.map Prod.fst).Nodup) :
    (activateEvent cn s).length =
      if (storageGet s cn).isSome then 1 else 0 := by
  induction s with
  | nil => rfl
  | cons e rest ih =>
    rw [List.map_cons, List.nodup_cons] at h
    by_cases he : e.1 = cn
    · have hrest : activateEvent cn rest = [] := by
        apply activate_nil_of_not_mem
        rw [← he]
        exact h.1
      simp [activateEvent, he, storageGet, hrest]
    · simp [activateEvent, he, storageGet, ih h.2]

/-! Lemmas about the fetch handlers. -/

theorem handleFetchA_hit (env : FetchEnv) (s : CacheStorage) (req : Request)
    (r : Response) (hm : req.method = "GET")
    (hc : cachesMatch s req.url = some r) :
    handleFetchA env s req = ⟨.response r, s, 0, 1, 0⟩ := by
  simp [handleFetchA, hm, hc]

theorem handleFetchB_hit (env : FetchEnv) (s : CacheStorage) (req : Request)
    (r : Response) (hm : req.method = "GET")
    (hc : cachesMatch s req.url = some r) :
    handleFetchB env s req = ⟨.response r, s, 0, 1, 0⟩ := by
  simp [handleFetchB, hm, hc]

/-- Network environment in which every fetch fails (the network is
disabled), with the cache storage itself healthy. -/
def offlineEnv : FetchEnv := ⟨fun _ => none, false⟩

/-! Claim theorems. -/

/-- C1: for every set of existing cache generation names (no two
generations sharing a name), after the activate handler of either variant
completes, every generation whose name differs from the current version's
generation name has been deleted, the current generation is kept as it
was, and exactly one generation remains when the current one existed,
zero otherwise (first-ever install with nothing stale). -/
theorem activate_removes_stale_generations (s : CacheStorage)
    (h : (s.map Prod.fst).Nodup) :
    ((∀ k, k ≠ CACHE_NAME_A →
        storageGet (activateEvent CACHE_NAME_A s) k = none) ∧
      storageGet (activateEvent CACHE_NAME_A s) CACHE_NAME_A =
        storageGet s CACHE_NAME_A ∧
      (activateEvent CACHE_NAME_A s).length =
        (if (storageGet s CACHE_NAME_A).isSome then 1 else 0)) ∧
    ((∀ k, k ≠ CACHE_NAME_B →
        storageGet (activateEvent CACHE_NAME_B s) k = none) ∧
      storageGet (activateEvent CACHE_NAME_B s) CACHE_NAME_B =
        storageGet s CACHE_NAME_B ∧
      (activateEvent CACHE_NAME_B s).length =
        (if (storageGet s CACHE_NAME_B).isSome then 1 else 0)) :=
  ⟨⟨fun k hk => storageGet_activate_ne _ k s hk,
    storageGet_activate_self _ s, activate_length _ s h⟩,
   fun k hk => storageGet_activate_ne _ k s hk,
   storageGet_activate_self _ s, activate_length _ s h⟩

def wStoreC1 : CacheStorage :=
  [("old-cache", []), (CACHE_NAME_A, [("index.html", ⟨"shell"⟩)]),
   (CACHE_NAME_B, [("/index.html", ⟨"shellB"⟩)])]

theorem activate_removes_stale_generations_witness :
    (wStoreC1.map Prod.fst).Nodup ∧
    storageGet (activateEvent CACHE_NAME_A wStoreC1) "old-cache" = none ∧
    (activateEvent CACHE_NAME_A wStoreC1).length =
      (if (storageGet wStoreC1 CACHE_NAME_A).isSome then 1 else 0) :=
  ⟨by decide,
   (activate_removes_stale_generations wStoreC1 (by decide)).1.1
     "old-cache" (by decide),
   (activate_removes_stale_generations wStoreC1 (by decide)).1.2.2⟩

/-- C2: for every intercepted GET request whose key has a stored response
somewhere in the cache storage, each fetch handler returns that cached
response, leaves the caches unchanged and performs zero network fetches,
for every network environment, so in particular when the network is
unavailable. -/
theorem fetch_hit_short_circuits_network (env : FetchEnv)
    (s : CacheStorage) (req : Request) (r : Response)
    (hm : req.method = "GET") (hc : cachesMatch s req.url = some r) :
    handleFetchA env s req = ⟨.response r, s, 0, 1, 0⟩ ∧
    handleFetchB env s req = ⟨.response r, s, 0, 1, 0⟩ :=
  ⟨handleFetchA_hit env s req r hm hc, handleFetchB_hit env s req r hm hc⟩

def wStoreC2 : CacheStorage := [(CACHE_NAME_A, [("styles.css", ⟨"css"⟩)])]

def wReqC2 : Request := ⟨"styles.css", "GET", "no-cors"⟩

theorem fetch_hit_short_circuits_network_witness :
    wReqC2.method = "GET" ∧
    cachesMatch wStoreC2 wReqC2.url = some ⟨"css"⟩ ∧
    handleFetchA offlineEnv wStoreC2 wReqC2 =
      ⟨.response ⟨"css"⟩, wStoreC2, 0, 1, 0⟩ ∧
    handleFetchB offlineEnv wStoreC2 wReqC2 =
      ⟨.response ⟨"css"⟩, wStoreC2, 0, 1, 0⟩ :=
  ⟨rfl, by decide,
   (fetch_hit_short_circuits_network offlineEnv wStoreC2 wReqC2 ⟨"css"⟩
     rfl (by decide)).1,
   (fetch_hit_short_circuits_network offlineEnv wStoreC2 wReqC2 ⟨"css"⟩
     rfl (by decide)).2⟩

/-- C3: for every GET request with no cached entry whose network fetch
succeeds (and whose cache write does not hit a storage failure), each
fetch handler returns the live response, stores a copy under the same
request key in the current generation, and a subsequent identical request
with the network disabled is answered from the cache. -/
theorem fetch_miss_populates_cache (env : FetchEnv) (s : CacheStorage)
    (req : Request) (r : Response) (hm : req.method = "GET")
    (hmiss : cachesMatch s req.url = none)
    (hnet : env.net req.url = some r) (hopen : env.openErr = false) :
    ((handleFetchA env s req).result = .response r ∧
      cacheLookup (cachesOpen (handleFetchA env s req).caches CACHE_NAME_A)
        req.url = some r ∧
      cachesMatch (handleFetchA env s req).caches req.url = some r ∧
      (handleFetchA offlineEnv (handleFetchA env s req).caches req).result =
        .response r) ∧
    ((handleFetchB env s req).result = .response r ∧
      cacheLookup (cachesOpen (handleFetchB env s req).caches CACHE_NAME_B)
        req.url = some r ∧
      cachesMatch (handleFetchB env s req).caches req.url = some r ∧
      (handleFetchB offlineEnv (handleFetchB env s req).caches req).result =
        .response r) := by
  have hA : handleFetchA env s req =
      ⟨.response r, putInCache s CACHE_NAME_A req.url r, 1, 1, 1⟩ := by
    simp [handleFetchA, hm, hmiss, hnet, hopen]
  have hB : handleFetchB env s req =
      ⟨.response r, putInCache s CACHE_NAME_B req.url r, 1, 1, 1⟩ := by
    simp [handleFetchB, hm, hmiss, hnet, hopen]
  have hmA := cachesMatch_putInCache_self s CACHE_NAME_A req.url r hmiss
  have hmB := cachesMatch_putInCache_self s CACHE_NAME_B req.url r hmiss
  refine ⟨⟨?_, ?_, ?_, ?_⟩, ?_, ?_, ?_, ?_⟩
  · rw [hA]
  · rw [hA]
    exact cacheLookup_cachesOpen_putInCache s CACHE_NAME_A req.url r
  · rw [hA]
    exact hmA
  · rw [hA, handleFetchA_hit offlineEnv _ req r hm hmA]
  · rw [hB]
  · rw [hB]
    exact cacheLookup_cachesOpen_putInCache s CACHE_NAME_B req.url r
  · rw [hB]
    exact hmB
  · rw [hB, handleFetchB_hit offlineEnv _ req r hm hmB]

def wStoreC3 : CacheStorage := [(CACHE_NAME_A, []), (CACHE_NAME_B, [])]

def wReqC3 : Request := ⟨"/new-asset.js", "GET", "no-cors"⟩

def wEnvC3 : FetchEnv := ⟨fun _ => some ⟨"fresh"⟩, false⟩

theorem fetch_miss_populates_cache_witness :
    wReqC3.method = "GET" ∧
    cachesMatch wStoreC3 wReqC3.url = none ∧
    wEnvC3.net wReqC3.url = some ⟨"fresh"⟩ ∧
    wEnvC3.openErr = false ∧
    (handleFetchA wEnvC3 wStoreC3 wReqC3).result = .response ⟨"fresh"⟩ ∧
    (handleFetchA offlineEnv (handleFetchA wEnvC3 wStoreC3 wReqC3).caches
      wReqC3).result = .response ⟨"fresh"⟩ :=
  ⟨rfl, by decide, rfl, rfl,
   (fetch_miss_populates_cache wEnvC3 wStoreC3 wReqC3 ⟨"fresh"⟩ rfl
     (by decide) rfl rfl).1.1,
   (fetch_miss_populates_cache wEnvC3 wStoreC3 wReqC3 ⟨"fresh"⟩ rfl
     (by decide) rfl rfl).1.2.2.2⟩

/-- C4: for every navigation GET request that misses the cache and whose
network fetch fails, variant A returns the cached "index.html" shell
document and variant B the cached "/index.html" shell document, rather
than an error. -/
theorem fetch_offline_navigation_fallback (env : FetchEnv)
    (s : CacheStorage) (req : Request) (shellA shellB : Response)
    (hm : req.method = "GET") (hnav : req.mode = "navigate")
    (hmiss : cachesMatch s req.url = none) (hnet : env.net req.url = none)
    (hsA : cachesMatch s "index.html" = some shellA)
    (hsB : cachesMatch s "/index.html" = some shellB) :
    (handleFetchA env s req).result = .response shellA ∧
    (handleFetchB env s req).result = .response shellB := by
  constructor
  · simp [handleFetchA, hm, hmiss, hnet, hnav, hsA]
  · simp [handleFetchB, hm, hmiss, hnet, hsB]

def wStoreC4 : CacheStorage :=
  [(CACHE_NAME_A, [("index.html", ⟨"shellA"⟩), ("/index.html", ⟨"shellB"⟩)])]

def wReqC4 : Request := ⟨"/some/deep/route", "GET", "navigate"⟩

theorem fetch_offline_navigation_fallback_witness :
    wReqC4.method = "GET" ∧ wReqC4.mode = "navigate" ∧
    cachesMatch wStoreC4 wReqC4.url = none ∧
    (handleFetchA offlineEnv wStoreC4 wReqC4).result =
      .response ⟨"shellA"⟩ ∧
    (handleFetchB offlineEnv wStoreC4 wReqC4).result =
      .response ⟨"shellB"⟩ :=
  ⟨rfl, rfl, by decide,
   (fetch_offline_navigation_fallback offlineEnv wStoreC4 wReqC4 ⟨"shellA"⟩
     ⟨"shellB"⟩ rfl rfl (by decide) rfl (by decide) (by decide)).1,
   (fetch_offline_navigation_fallback offlineEnv wStoreC4 wReqC4 ⟨"shellA"⟩
     ⟨"shellB"⟩ rfl rfl (by decide) rfl (by decide) (by decide)).2⟩

/-- C5: for every request whose method is not GET, neither fetch handler
intercepts it: the handler returns without respondWith (the request passes
through to the network unmodified), performs no cache lookup and no cache
write, and leaves the cache storage unchanged, regardless of whether the
URL has a cached entry. -/
theorem fetch_non_get_bypass (env : FetchEnv) (s : CacheStorage)
    (req : Request) (hm : req.method ≠ "GET") :
    handleFetchA env s req = ⟨.passthrough, s, 0, 0, 0⟩ ∧
    handleFetchB env s req = ⟨.passthrough, s, 0, 0, 0⟩ := by
  constructor
  · simp [handleFetchA, hm]
  · simp [handleFetchB, hm]

def wStoreC5 : CacheStorage := [(CACHE_NAME_A, [("styles.css", ⟨"css"⟩)])]

def wReqC5 : Request := ⟨"styles.css", "POST", "no-cors"⟩

theorem fetch_non_get_bypass_witness :
    wReqC5.method ≠ "GET" ∧
    cachesMatch wStoreC5 wReqC5.url = some ⟨"css"⟩ ∧
    handleFetchA offlineEnv wStoreC5 wReqC5 =
      ⟨.passthrough, wStoreC5, 0, 0, 0⟩ ∧
    handleFetchB offlineEnv wStoreC5 wReqC5 =
      ⟨.passthrough, wStoreC5, 0, 0, 0⟩ :=
  ⟨by decide, by decide,
   (fetch_non_get_bypass offlineEnv wStoreC5 wReqC5 (by decide)).1,
   (fetch_non_get_bypass offlineEnv wStoreC5 wReqC5 (by decide)).2⟩

def wStoreC6 : CacheStorage := [(CACHE_NAME_B, [("/index.html", ⟨"shellB"⟩)])]

def wReqC6 : Request := ⟨"/data.json", "GET", "cors"⟩

/-- C6 counterexample: a non-navigation GET request that misses the cache
and fails on the network does NOT have its failure surfaced by variant B;
the outer catch of variant B answers it with the cached "/index.html"
root document. -/
theorem fetchB_non_navigation_shell_counterexample :
    wReqC6.method = "GET" ∧ wReqC6.mode ≠ "navigate" ∧
    cachesMatch wStoreC6 wReqC6.url = none ∧
    offlineEnv.net wReqC6.url = none ∧
    cachesMatch wStoreC6 "/index.html" = some ⟨"shellB"⟩ ∧
    (handleFetchB offlineEnv wStoreC6 wReqC6).result =
      .response ⟨"shellB"⟩ := by
  refine ⟨rfl, by decide, by decide, rfl, by decide, by decide⟩

/-- C6 (amended): for every non-navigation GET request that misses the
cache and whose network fetch fails, variant A surfaces the failure (it
resolves with no response and never substitutes the shell, leaving the
caches unchanged); variant B instead answers with the cached "/index.html"
root document (or no response when that shell is not cached). -/
theorem fetch_non_navigation_failure_policy (env : FetchEnv)
    (s : CacheStorage) (req : Request) (hm : req.method = "GET")
    (hnav : req.mode ≠ "navigate") (hmiss : cachesMatch s req.url = none)
    (hnet : env.net req.url = none) :
    (handleFetchA env s req).result = .noResponse ∧
    (handleFetchA env s req).caches = s ∧
    (handleFetchB env s req).result =
      (match cachesMatch s "/index.html" with
       | some shell => FetchResult.response shell
       | none => FetchResult.noResponse) := by
  refine ⟨?_, ?_, ?_⟩
  · simp [handleFetchA, hm, hmiss, hnet, hnav]
  · simp [handleFetchA, hm, hmiss, hnet, hnav]
  · cases hs : cachesMatch s "/index.html" with
    | some shell => simp [handleFetchB, hm, hmiss, hnet, hs]
    | none => simp [handleFetchB, hm, hmiss, hnet, hs]

theorem fetch_non_navigation_failure_policy_witness :
    wReqC6.method = "GET" ∧ wReqC6.mode ≠ "navigate" ∧
    cachesMatch wStoreC6 wReqC6.url = none ∧
    (handleFetchA offlineEnv wStoreC6 wReqC6).result = .noResponse ∧
    (handleFetchB offlineEnv wStoreC6 wReqC6).result =
      (match cachesMatch wStoreC6 "/index.html" with
       | some shell => FetchResult.response shell
       | none => FetchResult.noResponse) :=
  ⟨rfl, by decide, by decide,
   (fetch_non_navigation_failure_policy offlineEnv wStoreC6 wReqC6 rfl
     (by decide) (by decide) rfl).1,
   (fetch_non_navigation_failure_policy offlineEnv wStoreC6 wReqC6 rfl
     (by decide) (by decide) rfl).2.2⟩

/-- C7: in both variants, install populates the current generation with
every URL of the asset manifest as one atomic set: if every single asset
fetch succeeds, install succeeds and every manifest asset is retrievable
from the named generation with no network access; if any single asset
fetch fails, the entire install step fails (the failure is signalled to
the host) and the named generation gains no entry at all. -/
theorem install_atomic_population (net : String → Option Response)
    (s : CacheStorage) :
    ((∀ u ∈ ASSETS_A, (net u).isSome) →
      (installA net s).succeeded = true ∧
      ∀ u r, u ∈ ASSETS_A → net u = some r →
        cacheLookup (cachesOpen (installA net s).caches CACHE_NAME_A) u =
          some r) ∧
    ((∃ u ∈ ASSETS_A, net u = none) →
      (installA net s).succeeded = false ∧
      ∀ v, cacheLookup (cachesOpen (installA net s).caches CACHE_NAME_A) v =
        cacheLookup (cachesOpen s CACHE_NAME_A) v) ∧
    ((∀ u ∈ ASSETS_B, (net u).isSome) →
      (installB net s).succeeded = true ∧
      ∀ u r, u ∈ ASSETS_B → net u = some r →
        cacheLookup (cachesOpen (installB net s).caches CACHE_NAME_B) u =
          some r) ∧
    ((∃ u ∈ ASSETS_B, net u = none) →
      (installB net s).succeeded = false ∧
      ∀ v, cacheLookup (cachesOpen (installB net s).caches CACHE_NAME_B) v =
        cacheLookup (cachesOpen s CACHE_NAME_B) v) :=
  ⟨fun h => installEvent_ok CACHE_NAME_A ASSETS_A net s h,
   fun hex =>
     installEvent_fail CACHE_NAME_A ASSETS_A net s hex.choose
       hex.choose_spec.1 hex.choose_spec.2,
   fun h => installEvent_ok CACHE_NAME_B ASSETS_B net s h,
   fun hex =>
     installEvent_fail CACHE_NAME_B ASSETS_B net s hex.choose
       hex.choose_spec.1 hex.choose_spec.2⟩

/-- Network that answers every URL with a response echoing the URL. -/
def wGoodNet : String → Option Response := fun u => some ⟨u⟩

/-- Network on which the app.js asset fetch fails. -/
def wBadNet : String → Option Response :=
  fun u => if u = "app.js" then none else some ⟨u⟩

theorem install_atomic_population_witness :
    (∀ u ∈ ASSETS_A, (wGoodNet u).isSome) ∧
    (installA wGoodNet []).succeeded = true ∧
    cacheLookup (cachesOpen (installA wGoodNet []).caches CACHE_NAME_A)
      "styles.css" = some ⟨"styles.css"⟩ ∧
    (∃ u ∈ ASSETS_A, wBadNet u = none) ∧
    (installA wBadNet []).succeeded = false ∧
    cacheLookup (cachesOpen (installA wBadNet []).caches CACHE_NAME_A)
      "styles.css" = cacheLookup (cachesOpen [] CACHE_NAME_A) "styles.css" :=
  ⟨by decide,
   ((install_atomic_population wGoodNet []).1 (by decide)).1,
   ((install_atomic_population wGoodNet []).1 (by decide)).2 "styles.css"
     ⟨"styles.css"⟩ (by decide) rfl,
   ⟨"app.js", by decide, rfl⟩,
   ((install_atomic_population wBadNet []).2.1 ⟨"app.js", by decide, rfl⟩).1,
   ((install_atomic_population wBadNet []).2.1
     ⟨"app.js", by decide, rfl⟩).2 "styles.css"⟩

def wStoreC8 : CacheStorage := [(CACHE_NAME_A, [("styles.css", ⟨"old"⟩)])]

def wReqC8 : Request := ⟨"styles.css", "GET", "no-cors"⟩

def wEnvC8 : FetchEnv := ⟨fun _ => some ⟨"new"⟩, false⟩

/-- C8 counterexample: on a cache hit, variant A performs zero network
fetches and zero cache writes and leaves the caches unchanged, even though
the network holds a different fresh response; no background refetch
overwrites the cached entry. -/
theorem fetchA_hit_no_revalidate_counterexample :
    cachesMatch wStoreC8 wReqC8.url = some ⟨"old"⟩ ∧
    wEnvC8.net wReqC8.url = some ⟨"new"⟩ ∧
    handleFetchA wEnvC8 wStoreC8 wReqC8 =
      ⟨.response ⟨"old"⟩, wStoreC8, 0, 1, 0⟩ ∧
    cachesMatch (handleFetchA wEnvC8 wStoreC8 wReqC8).caches wReqC8.url =
      some ⟨"old"⟩ := by
  refine ⟨by decide, rfl, by decide, by decide⟩

/-- C8 (amended): in variant A, a cache hit returns the cached response to
the caller and triggers no background network refetch at all: the number
of network fetches and of cache writes is zero and the cache storage is
unchanged. -/
theorem fetchA_hit_no_revalidate (env : FetchEnv) (s : CacheStorage)
    (req : Request) (r : Response) (hm : req.method = "GET")
    (hc : cachesMatch s req.url = some r) :
    (handleFetchA env s req).result = .response r ∧
    (handleFetchA env s req).netFetches = 0 ∧
    (handleFetchA env s req).cacheWrites = 0 ∧
    (handleFetchA env s req).caches = s := by
  rw [handleFetchA_hit env s req r hm hc]
  exact ⟨rfl, rfl, rfl, rfl⟩

theorem fetchA_hit_no_revalidate_witness :
    wReqC8.method = "GET" ∧
    cachesMatch wStoreC8 wReqC8.url = some ⟨"old"⟩ ∧
    (handleFetchA wEnvC8 wStoreC8 wReqC8).netFetches = 0 ∧
    (handleFetchA wEnvC8 wStoreC8 wReqC8).caches = wStoreC8 :=
  ⟨rfl, by decide,
   (fetchA_hit_no_revalidate wEnvC8 wStoreC8 wReqC8 ⟨"old"⟩ rfl
     (by decide)).2.1,
   (fetchA_hit_no_revalidate wEnvC8 wStoreC8 wReqC8 ⟨"old"⟩ rfl
     (by decide)).2.2.2⟩

theorem installEvent_nodup (n : String) (as : List String)
    (net : String → Option Response) (s : CacheStorage)
    (h : ∀ u ∈ as, (net u).isSome)
    (hnod : ((cachesOpen s n).map Prod.fst).Nodup) :
    ((cachesOpen (installEvent n as net s).caches n).map Prod.fst).Nodup := by
  obtain ⟨ps, hps, hmap, hall⟩ := fetchAssets_ok net as h
  have hcaches : (installEvent n as net s).caches =
      storageSet s n
        (ps.foldl (fun acc p => cachePut acc p.1 p.2) (cachesOpen s n)) := by
    simp [installEvent, cacheAddAll, hps]
  rw [hcaches, cachesOpen_storageSet_self]
  exact nodup_keys_foldlPut ps _ hnod

/-- C9: in both variants, when every manifest asset fetch succeeds,
running the install handler a second time on the state produced by the
first run succeeds (no error on re-run) and returns exactly the same
cache storage, so the set of cached entries is that of a single run; and
when the current generation started with no duplicate keys, it still has
no duplicate keys after install (entries are overwritten, not
duplicated). -/
theorem install_idempotent (net : String → Option Response)
    (s : CacheStorage) (hA : ∀ u ∈ ASSETS_A, (net u).isSome)
    (hB : ∀ u ∈ ASSETS_B, (net u).isSome) :
    ((installA net s).succeeded = true ∧
      installA net (installA net s).caches =
        ⟨(installA net s).caches, true⟩ ∧
      (((cachesOpen s CACHE_NAME_A).map Prod.fst).Nodup →
        ((cachesOpen (installA net s).caches CACHE_NAME_A).map
          Prod.fst).Nodup)) ∧
    ((installB net s).succeeded = true ∧
      installB net (installB net s).caches =
        ⟨(installB net s).caches, true⟩ ∧
      (((cachesOpen s CACHE_NAME_B).map Prod.fst).Nodup →
        ((cachesOpen (installB net s).caches CACHE_NAME_B).map
          Prod.fst).Nodup)) :=
  ⟨⟨(installEvent_ok CACHE_NAME_A ASSETS_A net s hA).1,
    installEvent_idem CACHE_NAME_A ASSETS_A net s hA,
    fun hnod => installEvent_nodup CACHE_NAME_A ASSETS_A net s hA hnod⟩,
   (installEvent_ok CACHE_NAME_B ASSETS_B net s hB).1,
   installEvent_idem CACHE_NAME_B ASSETS_B net s hB,
   fun hnod => installEvent_nodup CACHE_NAME_B ASSETS_B net s hB hnod⟩

theorem install_idempotent_witness :
    (∀ u ∈ ASSETS_A, (wGoodNet u).isSome) ∧
    (∀ u ∈ ASSETS_B, (wGoodNet u).isSome) ∧
    installA wGoodNet (installA wGoodNet []).caches =
      ⟨(installA wGoodNet []).caches, true⟩ ∧
    installB wGoodNet (installB wGoodNet []).caches =
      ⟨(installB wGoodNet []).caches, true⟩ :=
  ⟨by decide, by decide,
   (install_idempotent wGoodNet [] (by decide) (by decide)).1.2.1,
   (install_idempotent wGoodNet [] (by decide) (by decide)).2.2.1⟩

/-- C10: in variant B, when a GET request misses the cache and the network
fetch succeeds but the caches.open step of the write of the response into
the cache fails, the caller does not receive the fetched response: nothing
is written (the caches are unchanged) and the catch returns the cached
"/index.html" shell document (an undefined result if that shell is not
cached). -/
theorem fetchB_write_failure_drops_response (env : FetchEnv)
    (s : CacheStorage) (req : Request) (r : Response)
    (hm : req.method = "GET") (hmiss : cachesMatch s req.url = none)
    (hnet : env.net req.url = some r) (hopen : env.openErr = true) :
    (handleFetchB env s req).caches = s ∧
    (handleFetchB env s req).cacheWrites = 0 ∧
    (handleFetchB env s req).result =
      (match cachesMatch s "/index.html" with
       | some shell => FetchResult.response shell
       | none => FetchResult.noResponse) := by
  cases hs : cachesMatch s "/index.html" with
  | some shell =>
    refine ⟨?_, ?_, ?_⟩ <;> simp [handleFetchB, hm, hmiss, hnet, hopen, hs]
  | none =>
    refine ⟨?_, ?_, ?_⟩ <;> simp [handleFetchB, hm, hmiss, hnet, hopen, hs]

def wStoreC10 : CacheStorage :=
  [(CACHE_NAME_B, [("/index.html", ⟨"shellB"⟩)])]

def wReqC10 : Request := ⟨"/new-asset.js", "GET", "cors"⟩

def wEnvC10 : FetchEnv := ⟨fun _ => some ⟨"fresh"⟩, true⟩

theorem fetchB_write_failure_drops_response_witness :
    wReqC10.method = "GET" ∧
    cachesMatch wStoreC10 wReqC10.url = none ∧
    wEnvC10.net wReqC10.url = some ⟨"fresh"⟩ ∧
    wEnvC10.openErr = true ∧
    (handleFetchB wEnvC10 wStoreC10 wReqC10).caches = wStoreC10 ∧
    (handleFetchB wEnvC10 wStoreC10 wReqC10).result =
      (match cachesMatch wStoreC10 "/index.html" with
       | some shell => FetchResult.response shell
       | none => FetchResult.noResponse) :=
  ⟨rfl, by decide, rfl, rfl,
   (fetchB_write_failure_drops_response wEnvC10 wStoreC10 wReqC10 ⟨"fresh"⟩
     rfl (by decide) rfl rfl).1,
   (fetchB_write_failure_drops_response wEnvC10 wStoreC10 wReqC10 ⟨"fresh"⟩
     rfl (by decide) rfl rfl).2.2⟩
